import Mathlib

/-!
Verification of the wrpslog observer: a configurable field-extraction and
structured-log-emission pipeline for WRP messages.

The embedding translates `fields.go` and `observer.go`:
* `Message` models the subset of `wrp.Message` the package reads.
* `Attr` / `AttrValue` model `slog.Attr` (an attribute with empty key is the
  skip sentinel, mirroring the zero `slog.Attr`).
* `SlotTable` models the fixed-size array `[fieldCount]fieldFunc`; a `none`
  entry is a nil Go function value.
* `FieldOpt` acts on the slot table; every constructor in the catalog only
  writes its own slot of the observer, so the Go `func(*Observer)` is embedded
  as `SlotTable → SlotTable`.  A nil `FieldOpt` in the configuration list is
  modelled with `Option`.
* `Observer.observeWRP` is state-passing: it returns the updated observer and
  `some` emission exactly when the Go code calls `Logger.LogAttrs`.
* `sync.Once` is modelled by the `once` flag: its contract is that the guarded
  body executes exactly once across all (racing) callers, so a run of the
  system linearises to the sequential state machine embedded here.
-/

namespace Wrpslog

/-- Model of an `slog` attribute value as used by this package: strings,
integers (`slog.Int` / `slog.Int64`), string lists and string-to-string
mappings (`slog.Any` on `[]string` / `map[string]string`), and the zero
value carried by the zero `slog.Attr`. -/
inductive AttrValue where
  | str (s : String)
  | int (n : Int)
  | strList (l : List String)
  | strMap (m : List (String × String))
  | nilVal
deriving DecidableEq, Repr

/-- Model of `slog.Attr`: a key paired with a value. -/
structure Attr where
  key : String
  value : AttrValue
deriving DecidableEq, Repr

/-- The zero `slog.Attr` (`slog.Attr\x7b\x7d`), used as the skip sentinel:
its key is the empty string. -/
def Attr.skip : Attr := { key := "", value := AttrValue.nilVal }

/-- The subset of `wrp.Message` fields read by the package.  `MsgType` stands
for the Go field `Type` (a Lean keyword); optional numeric fields are Go
pointers; `Payload` is a byte sequence; `Metadata` is the string map. -/
structure Message where
  MsgType : Int
  Source : String
  Destination : String
  TransactionUUID : String
  ContentType : String
  Accept : String
  Status : Option Int
  RequestDeliveryResponse : Option Int
  Headers : List String
  Metadata : List (String × String)
  Path : String
  Payload : List Nat
  ServiceName : String
  URL : String
  PartnerIDs : List String
  SessionID : String
  QualityOfService : Int
deriving DecidableEq, Repr

/-- Field name constants matching WRP message JSON tags (`fields.go`). -/
def fMsgType : String := "msg_type"

def fSource : String := "source"

def fDestination : String := "dest"

def fTransactionUUID : String := "transaction_uuid"

def fContentType : String := "content_type"

def fAccept : String := "accept"

def fStatus : String := "status"

def fRequestDeliveryResponse : String := "rdr"

def fHeaders : String := "headers"

def fMetadata : String := "metadata"

def fPath : String := "path"

def fPayload : String := "payload"

def fPayloadSize : String := "payload_size"

def fServiceName : String := "service_name"

def fURL : String := "url"

def fPartnerIDs : String := "partner_ids"

def fSessionID : String := "session_id"

def fQualityOfService : String := "qos"

/-- `fieldIndex`: a specific field slot in the `fields` array (`fields.go`).
Constructor order is the slot declaration order. -/
inductive fieldIndex where
  | idxMsgType
  | idxSource
  | idxDestination
  | idxTransactionUUID
  | idxContentType
  | idxAccept
  | idxStatus
  | idxRequestDeliveryResponse
  | idxHeaders
  | idxMetadata
  | idxPath
  | idxPayload
  | idxPayloadSize
  | idxServiceName
  | idxURL
  | idxPartnerIDs
  | idxSessionID
  | idxQualityOfService
deriving DecidableEq, Repr, Fintype

open fieldIndex

/-- The stable attribute key of each slot. -/
def fieldKey : fieldIndex → String
  | idxMsgType => fMsgType
  | idxSource => fSource
  | idxDestination => fDestination
  | idxTransactionUUID => fTransactionUUID
  | idxContentType => fContentType
  | idxAccept => fAccept
  | idxStatus => fStatus
  | idxRequestDeliveryResponse => fRequestDeliveryResponse
  | idxHeaders => fHeaders
  | idxMetadata => fMetadata
  | idxPath => fPath
  | idxPayload => fPayload
  | idxPayloadSize => fPayloadSize
  | idxServiceName => fServiceName
  | idxURL => fURL
  | idxPartnerIDs => fPartnerIDs
  | idxSessionID => fSessionID
  | idxQualityOfService => fQualityOfService

/-- The 18 fixed keys, in slot order (spec section 6). -/
def allFieldKeys : List String :=
  [fMsgType, fSource, fDestination, fTransactionUUID, fContentType, fAccept,
   fStatus, fRequestDeliveryResponse, fHeaders, fMetadata, fPath, fPayload,
   fPayloadSize, fServiceName, fURL, fPartnerIDs, fSessionID,
   fQualityOfService]

/-- All slot identities in declaration (ascending) order; this is the order
in which `ObserveWRP` ranges over the `fields` array. -/
def slotIndices : List fieldIndex :=
  [idxMsgType, idxSource, idxDestination, idxTransactionUUID, idxContentType,
   idxAccept, idxStatus, idxRequestDeliveryResponse, idxHeaders, idxMetadata,
   idxPath, idxPayload, idxPayloadSize, idxServiceName, idxURL, idxPartnerIDs,
   idxSessionID, idxQualityOfService]

/-- `fieldFunc` extracts a field from a WRP message as an attribute;
an attribute with an empty key means the field is skipped. -/
def fieldFunc := Message → Attr

/-- The fixed-size slot table `[fieldCount]fieldFunc`; `none` is a nil entry. -/
def SlotTable := fieldIndex → Option fieldFunc

/-- The zero-valued table (all entries nil). -/
def emptyTable : SlotTable := fun _ => none

/-- Array store `fields[i] = f`. -/
def setSlot (t : SlotTable) (i : fieldIndex) (f : Option fieldFunc) : SlotTable :=
  fun j => if i = j then f else t j

/-- `FieldOpt` configures a field slot.  In Go it receives the observer; every
catalog constructor touches only the `fields` array, so it is embedded as a
function on the slot table. -/
def FieldOpt := SlotTable → SlotTable

/-- Modelled from the spec: the external message schema's human-readable
rendering of a message type (`wrp.MessageType.String` lives in wrp-go, outside
this repository).  No claim depends on its output, only on the attribute key
it is paired with. -/
def wrpMessageTypeString (t : Int) : String := toString t

/-- The standard base64 alphabet (`encoding/base64.StdEncoding`). -/
def base64Alphabet : List Char :=
  "ABCDEFGHIJKLMNOPQRSTUVWXYZabcdefghijklmnopqrstuvwxyz0123456789+/".toList

/-- The base64 digit for a 6-bit group. -/
def base64Digit (n : Nat) : Char := base64Alphabet.getD n 'A'

/-- Standard base64 encoding with padding (`base64.StdEncoding.EncodeToString`).
Payload entries are bytes, reduced mod 256. -/
def base64Encode : List Nat → String
  | [] => ""
  | b1 :: b2 :: b3 :: rest =>
    let n := (b1 % 256) * 65536 + (b2 % 256) * 256 + b3 % 256
    String.mk [base64Digit (n / 262144 % 64), base64Digit (n / 4096 % 64),
               base64Digit (n / 64 % 64), base64Digit (n % 64)] ++
      base64Encode rest
  | [b1, b2] =>
    let n := (b1 % 256) * 65536 + (b2 % 256) * 256
    String.mk [base64Digit (n / 262144 % 64), base64Digit (n / 4096 % 64),
               base64Digit (n / 64 % 64)] ++ "="
  | [b1] =>
    let n := (b1 % 256) * 65536
    String.mk [base64Digit (n / 262144 % 64), base64Digit (n / 4096 % 64)] ++ "=="

/-! ### The field selector catalog (`fields.go`)

Each Go constructor stores an anonymous closure into its slot; here each
closure is a named `fieldFunc` and the constructor is the store. -/

/-- Closure installed by `MessageTypeAsNum`. -/
def messageTypeAsNumField : fieldFunc := fun msg =>
  { key := fMsgType, value := AttrValue.int msg.MsgType }

/-- Closure installed by `MessageTypeAsString`. -/
def messageTypeAsStringField : fieldFunc := fun msg =>
  { key := fMsgType, value := AttrValue.str (wrpMessageTypeString msg.MsgType) }

/-- Closure installed by `Source`. -/
def sourceField : fieldFunc := fun msg =>
  if msg.Source = "" then Attr.skip
  else { key := fSource, value := AttrValue.str msg.Source }

/-- Closure installed by `SourceAlways`. -/
def sourceAlwaysField : fieldFunc := fun msg =>
  { key := fSource, value := AttrValue.str msg.Source }

/-- Closure installed by `Destination`. -/
def destinationField : fieldFunc := fun msg =>
  if msg.Destination = "" then Attr.skip
  else { key := fDestination, value := AttrValue.str msg.Destination }

/-- Closure installed by `DestinationAlways`. -/
def destinationAlwaysField : fieldFunc := fun msg =>
  { key := fDestination, value := AttrValue.str msg.Destination }

/-- Closure installed by `TransactionUUID`. -/
def transactionUUIDField : fieldFunc := fun msg =>
  if msg.TransactionUUID = "" then Attr.skip
  else { key := fTransactionUUID, value := AttrValue.str msg.TransactionUUID }

/-- Closure installed by `TransactionUUIDAlways`. -/
def transactionUUIDAlwaysField : fieldFunc := fun msg =>
  { key := fTransactionUUID, value := AttrValue.str msg.TransactionUUID }

/-- Closure installed by `ContentType`. -/
def contentTypeField : fieldFunc := fun msg =>
  if msg.ContentType = "" then Attr.skip
  else { key := fContentType, value := AttrValue.str msg.ContentType }

/-- Closure installed by `ContentTypeAlways`. -/
def contentTypeAlwaysField : fieldFunc := fun msg =>
  { key := fContentType, value := AttrValue.str msg.ContentType }

/-- Closure installed by `Accept`. -/
def acceptField : fieldFunc := fun msg =>
  if msg.Accept = "" then Attr.skip
  else { key := fAccept, value := AttrValue.str msg.Accept }

/-- Closure installed by `AcceptAlways`. -/
def acceptAlwaysField : fieldFunc := fun msg =>
  { key := fAccept, value := AttrValue.str msg.Accept }

/-- Closure installed by `Status`. -/
def statusField : fieldFunc := fun msg =>
  match msg.Status with
  | none => Attr.skip
  | some s => { key := fStatus, value := AttrValue.int s }

/-- Closure installed by `StatusAlways` (logs 0 when nil). -/
def statusAlwaysField : fieldFunc := fun msg =>
  match msg.Status with
  | none => { key := fStatus, value := AttrValue.int 0 }
  | some s => { key := fStatus, value := AttrValue.int s }

/-- Closure installed by `RequestDeliveryResponse`. -/
def requestDeliveryResponseField : fieldFunc := fun msg =>
  match msg.RequestDeliveryResponse with
  | none => Attr.skip
  | some r => { key := fRequestDeliveryResponse, value := AttrValue.int r }

/-- Closure installed by `RequestDeliveryResponseAlways` (logs 0 when nil). -/
def requestDeliveryResponseAlwaysField : fieldFunc := fun msg =>
  match msg.RequestDeliveryResponse with
  | none => { key := fRequestDeliveryResponse, value := AttrValue.int 0 }
  | some r => { key := fRequestDeliveryResponse, value := AttrValue.int r }

/-- Closure installed by `Headers`. -/
def headersField : fieldFunc := fun msg =>
  if msg.Headers = [] then Attr.skip
  else { key := fHeaders, value := AttrValue.strList msg.Headers }

/-- Closure installed by `HeadersAlways`. -/
def headersAlwaysField : fieldFunc := fun msg =>
  { key := fHeaders, value := AttrValue.strList msg.Headers }

/-- Closure installed by `Metadata`. -/
def metadataField : fieldFunc := fun msg =>
  if msg.Metadata = [] then Attr.skip
  else { key := fMetadata, value := AttrValue.strMap msg.Metadata }

/-- Closure installed by `MetadataAlways`. -/
def metadataAlwaysField : fieldFunc := fun msg =>
  { key := fMetadata, value := AttrValue.strMap msg.Metadata }

/-- Closure installed by `Path`. -/
def pathField : fieldFunc := fun msg =>
  if msg.Path = "" then Attr.skip
  else { key := fPath, value := AttrValue.str msg.Path }

/-- Closure installed by `PathAlways`. -/
def pathAlwaysField : fieldFunc := fun msg =>
  { key := fPath, value := AttrValue.str msg.Path }

/-- Closure installed by `PayloadAsBase64`. -/
def payloadAsBase64Field : fieldFunc := fun msg =>
  if msg.Payload = [] then Attr.skip
  else { key := fPayload, value := AttrValue.str (base64Encode msg.Payload) }

/-- Closure installed by `PayloadAsBase64Always`. -/
def payloadAsBase64AlwaysField : fieldFunc := fun msg =>
  { key := fPayload, value := AttrValue.str (base64Encode msg.Payload) }

/-- Closure installed by `PayloadSize`. -/
def payloadSizeField : fieldFunc := fun msg =>
  if msg.Payload = [] then Attr.skip
  else { key := fPayloadSize, value := AttrValue.int msg.Payload.length }

/-- Closure installed by `PayloadSizeAlways`. -/
def payloadSizeAlwaysField : fieldFunc := fun msg =>
  { key := fPayloadSize, value := AttrValue.int msg.Payload.length }

/-- Closure installed by `ServiceName`. -/
def serviceNameField : fieldFunc := fun msg =>
  if msg.ServiceName = "" then Attr.skip
  else { key := fServiceName, value := AttrValue.str msg.ServiceName }

/-- Closure installed by `ServiceNameAlways`. -/
def serviceNameAlwaysField : fieldFunc := fun msg =>
  { key := fServiceName, value := AttrValue.str msg.ServiceName }

/-- Closure installed by `URL`. -/
def urlField : fieldFunc := fun msg =>
  if msg.URL = "" then Attr.skip
  else { key := fURL, value := AttrValue.str msg.URL }

/-- Closure installed by `URLAlways`. -/
def urlAlwaysField : fieldFunc := fun msg =>
  { key := fURL, value := AttrValue.str msg.URL }

/-- Closure installed by `PartnerIDs`. -/
def partnerIDsField : fieldFunc := fun msg =>
  if msg.PartnerIDs = [] then Attr.skip
  else { key := fPartnerIDs, value := AttrValue.strList msg.PartnerIDs }

/-- Closure installed by `PartnerIDsAlways`. -/
def partnerIDsAlwaysField : fieldFunc := fun msg =>
  { key := fPartnerIDs, value := AttrValue.strList msg.PartnerIDs }

/-- Closure installed by `SessionID`. -/
def sessionIDField : fieldFunc := fun msg =>
  if msg.SessionID = "" then Attr.skip
  else { key := fSessionID, value := AttrValue.str msg.SessionID }

/-- Closure installed by `SessionIDAlways`. -/
def sessionIDAlwaysField : fieldFunc := fun msg =>
  { key := fSessionID, value := AttrValue.str msg.SessionID }

/-- Closure installed by `QualityOfServiceAlways`. -/
def qualityOfServiceAlwaysField : fieldFunc := fun msg =>
  { key := fQualityOfService, value := AttrValue.int msg.QualityOfService }

/-- `MessageTypeAsNum` logs the message type as a number. -/
def MessageTypeAsNum : FieldOpt := fun t =>
  setSlot t idxMsgType (some messageTypeAsNumField)

/-- `MessageType` is an alias for `MessageTypeAsNum`. -/
def MessageType : FieldOpt := MessageTypeAsNum

/-- `MessageTypeAsString` logs the message type as a string, same slot. -/
def MessageTypeAsString : FieldOpt := fun t =>
  setSlot t idxMsgType (some messageTypeAsStringField)

/-- `Source` logs the source; empty values are omitted. -/
def Source : FieldOpt := fun t => setSlot t idxSource (some sourceField)

/-- `SourceAlways` logs the source, even when empty. -/
def SourceAlways : FieldOpt := fun t =>
  setSlot t idxSource (some sourceAlwaysField)

/-- `Destination` logs the destination; empty values are omitted. -/
def Destination : FieldOpt := fun t =>
  setSlot t idxDestination (some destinationField)

/-- `DestinationAlways` logs the destination, even when empty. -/
def DestinationAlways : FieldOpt := fun t =>
  setSlot t idxDestination (some destinationAlwaysField)

/-- `TransactionUUID` logs the transaction UUID; empty values are omitted. -/
def TransactionUUID : FieldOpt := fun t =>
  setSlot t idxTransactionUUID (some transactionUUIDField)

/-- `TransactionUUIDAlways` logs the transaction UUID, even when empty. -/
def TransactionUUIDAlways : FieldOpt := fun t =>
  setSlot t idxTransactionUUID (some transactionUUIDAlwaysField)

/-- `ContentType` logs the content type; empty values are omitted. -/
def ContentType : FieldOpt := fun t =>
  setSlot t idxContentType (some contentTypeField)

/-- `ContentTypeAlways` logs the content type, even when empty. -/
def ContentTypeAlways : FieldOpt := fun t =>
  setSlot t idxContentType (some contentTypeAlwaysField)

/-- `Accept` logs the accept header; empty values are omitted. -/
def Accept : FieldOpt := fun t => setSlot t idxAccept (some acceptField)

/-- `AcceptAlways` logs the accept header, even when empty. -/
def AcceptAlways : FieldOpt := fun t =>
  setSlot t idxAccept (some acceptAlwaysField)

/-- `Status` logs the status; nil values are omitted. -/
def Status : FieldOpt := fun t => setSlot t idxStatus (some statusField)

/-- `StatusAlways` logs the status, even when nil (logs 0). -/
def StatusAlways : FieldOpt := fun t =>
  setSlot t idxStatus (some statusAlwaysField)

/-- `RequestDeliveryResponse` logs the rdr; nil values are omitted. -/
def RequestDeliveryResponse : FieldOpt := fun t =>
  setSlot t idxRequestDeliveryResponse (some requestDeliveryResponseField)

/-- `RequestDeliveryResponseAlways` logs the rdr, even when nil (logs 0). -/
def RequestDeliveryResponseAlways : FieldOpt := fun t =>
  setSlot t idxRequestDeliveryResponse (some requestDeliveryResponseAlwaysField)

/-- `Headers` logs the headers; empty values are omitted. -/
def Headers : FieldOpt := fun t => setSlot t idxHeaders (some headersField)

/-- `HeadersAlways` logs the headers, even when empty. -/
def HeadersAlways : FieldOpt := fun t =>
  setSlot t idxHeaders (some headersAlwaysField)

/-- `Metadata` logs the metadata; empty values are omitted. -/
def Metadata : FieldOpt := fun t => setSlot t idxMetadata (some metadataField)

/-- `MetadataAlways` logs the metadata, even when empty. -/
def MetadataAlways : FieldOpt := fun t =>
  setSlot t idxMetadata (some metadataAlwaysField)

/-- `Path` logs the path; empty values are omitted. -/
def Path : FieldOpt := fun t => setSlot t idxPath (some pathField)

/-- `PathAlways` logs the path, even when empty. -/
def PathAlways : FieldOpt := fun t => setSlot t idxPath (some pathAlwaysField)

/-- `PayloadAsBase64` logs the payload base64-encoded; empty omitted. -/
def PayloadAsBase64 : FieldOpt := fun t =>
  setSlot t idxPayload (some payloadAsBase64Field)

/-- `PayloadAsBase64Always` logs the payload base64-encoded, even when empty. -/
def PayloadAsBase64Always : FieldOpt := fun t =>
  setSlot t idxPayload (some payloadAsBase64AlwaysField)

/-- `PayloadSize` logs the payload size; empty payloads are omitted. -/
def PayloadSize : FieldOpt := fun t =>
  setSlot t idxPayloadSize (some payloadSizeField)

/-- `PayloadSizeAlways` logs the payload size, even when empty. -/
def PayloadSizeAlways : FieldOpt := fun t =>
  setSlot t idxPayloadSize (some payloadSizeAlwaysField)

/-- `ServiceName` logs the service name; empty values are omitted. -/
def ServiceName : FieldOpt := fun t =>
  setSlot t idxServiceName (some serviceNameField)

/-- `ServiceNameAlways` logs the service name, even when empty. -/
def ServiceNameAlways : FieldOpt := fun t =>
  setSlot t idxServiceName (some serviceNameAlwaysField)

/-- `URL` logs the URL; empty values are omitted. -/
def URL : FieldOpt := fun t => setSlot t idxURL (some urlField)

/-- `URLAlways` logs the URL, even when empty. -/
def URLAlways : FieldOpt := fun t => setSlot t idxURL (some urlAlwaysField)

/-- `PartnerIDs` logs the partner IDs; empty values are omitted. -/
def PartnerIDs : FieldOpt := fun t =>
  setSlot t idxPartnerIDs (some partnerIDsField)

/-- `PartnerIDsAlways` logs the partner IDs, even when empty. -/
def PartnerIDsAlways : FieldOpt := fun t =>
  setSlot t idxPartnerIDs (some partnerIDsAlwaysField)

/-- `SessionID` logs the session ID; empty values are omitted. -/
def SessionID : FieldOpt := fun t =>
  setSlot t idxSessionID (some sessionIDField)

/-- `SessionIDAlways` logs the session ID, even when empty. -/
def SessionIDAlways : FieldOpt := fun t =>
  setSlot t idxSessionID (some sessionIDAlwaysField)

/-- `QualityOfServiceAlways` logs the qos, even when zero. -/
def QualityOfServiceAlways : FieldOpt := fun t =>
  setSlot t idxQualityOfService (some qualityOfServiceAlwaysField)

/-- `QualityOfService` is an alias for `QualityOfServiceAlways`. -/
def QualityOfService : FieldOpt := QualityOfServiceAlways

/-! ### The observation pipeline (`observer.go`) -/

/-- The external log sink (`slog.Logger`): all the pipeline consumes from it
is the enabled-check for a level.  The Go `Enabled` also receives a context,
which the handler may ignore; the embedding drops it. -/
structure Logger where
  enabledFor : Int → Bool

/-- One record handed to the sink via `Logger.LogAttrs`: the configured
level, the configured message text, and the assembled attribute list. -/
structure Emission where
  level : Int
  message : String
  attrs : List Attr
deriving DecidableEq, Repr

/-- The `Observer` state: the four configuration fields, the `sync.Once`
done flag, and the compiled slot table (zero-valued before compilation). -/
structure Observer where
  Logger : Option Logger
  Level : Int
  Message : String
  Fields : List (Option FieldOpt)
  once : Bool
  fields : SlotTable

/-- A freshly constructed observer (Go composite literal with zero-valued
`once` and `fields`). -/
def mkObserver (lg : Option Logger) (lvl : Int) (m : String)
    (cfg : List (Option FieldOpt)) : Observer :=
  { Logger := lg, Level := lvl, Message := m, Fields := cfg,
    once := false, fields := emptyTable }

/-- The loop body of `Observer.init`: apply each non-nil option in order. -/
def compileFields (opts : List (Option FieldOpt)) (t : SlotTable) : SlotTable :=
  opts.foldl (fun acc o => match o with | none => acc | some opt => opt acc) t

/-- `Observer.init`: the `sync.Once`-guarded compilation of `Fields` into the
slot table.  The guard's contract (the body runs exactly once across all
callers) linearises to this `once` flag. -/
def Observer.init (ob : Observer) : Observer :=
  if ob.once then ob
  else { ob with once := true, fields := compileFields ob.Fields ob.fields }

/-- One iteration of the collection loop in `ObserveWRP`: a nil entry and an
attribute with empty key contribute nothing. -/
def slotContribution (t : SlotTable) (msg : Message) (i : fieldIndex) :
    Option Attr :=
  match t i with
  | none => none
  | some fn =>
    let attr := fn msg
    if attr.key = "" then none else some attr

/-- The collection loop of `ObserveWRP`: range over the slot array in
declaration order, keeping the non-skipped attributes in order. -/
def collectAttrs (t : SlotTable) (msg : Message) : List Attr :=
  slotIndices.filterMap (slotContribution t msg)

/-- `Observer.ObserveWRP`: nil-logger guard, enabled-level guard, lazy init,
attribute collection, emission.  Returns the updated observer state and
`some` record exactly when the Go code calls `LogAttrs`. -/
def Observer.observeWRP (ob : Observer) (msg : Wrpslog.Message) :
    Observer × Option Emission :=
  match ob.Logger with
  | none => (ob, none)
  | some lg =>
    if lg.enabledFor ob.Level then
      let ob1 := ob.init
      (ob1, some { level := ob.Level, message := ob.Message,
                   attrs := collectAttrs ob1.fields msg })
    else (ob, none)

/-- A sequence of `ObserveWRP` calls against one shared observer, threading
the state and collecting the emitted records in order. -/
def runTrace (ob : Observer) (msgs : List Message) :
    Observer × List Emission :=
  match msgs with
  | [] => (ob, [])
  | m :: rest =>
    let r := ob.observeWRP m
    let rr := runTrace r.1 rest
    (rr.1, r.2.toList ++ rr.2)

/-- A sink for which every level is enabled (the examples' handler). -/
def enabledLogger : Logger := { enabledFor := fun _ => true }

/-- The all-zero message (Go zero `wrp.Message` restricted to the modelled
fields). -/
def zeroMsg : Message :=
  { MsgType := 0, Source := "", Destination := "", TransactionUUID := "",
    ContentType := "", Accept := "", Status := none,
    RequestDeliveryResponse := none, Headers := [], Metadata := [],
    Path := "", Payload := [], ServiceName := "", URL := "", PartnerIDs := [],
    SessionID := "", QualityOfService := 0 }

/-- The message of the package's first worked example. -/
def exampleMsg1 : Message :=
  { zeroMsg with
    MsgType := 3
    Source := "dns:talaria.example.com/service"
    Destination := "event:device-status/mac:112233445566/online"
    TransactionUUID := "546514d4-9cb6-41c9-88ca-ccd4c130c525" }

/-- The message of the package's second worked example (destination and
status absent). -/
def exampleMsg2 : Message :=
  { zeroMsg with
    MsgType := 4
    Source := "dns:talaria.example.com/service" }

/-! ### Helper lemmas about the pipeline state machine -/

theorem init_once (ob : Observer) : ob.init.once = true := by
  unfold Observer.init
  split
  · assumption
  · rfl

theorem init_of_once {ob : Observer} (h : ob.once = true) : ob.init = ob := by
  unfold Observer.init
  simp [h]

theorem observe_state_of_once {ob : Observer} (h : ob.once = true)
    (m : Message) : (ob.observeWRP m).1 = ob := by
  cases hl : ob.Logger with
  | none => simp [Observer.observeWRP, hl]
  | some lg =>
    by_cases he : lg.enabledFor ob.Level
    · simp [Observer.observeWRP, hl, he, init_of_once h]
    · simp [Observer.observeWRP, hl, he]

theorem observe_once_of_isSome {ob : Observer} {m : Message}
    (h : ((ob.observeWRP m).2).isSome = true) : (ob.observeWRP m).1.once = true := by
  cases hl : ob.Logger with
  | none => simp [Observer.observeWRP, hl] at h
  | some lg =>
    by_cases he : lg.enabledFor ob.Level
    · simp [Observer.observeWRP, hl, he, init_once]
    · simp [Observer.observeWRP, hl, he] at h

theorem observe_snd_fieldsIrrel {ob : Observer} (h : ob.once = true)
    (F : List (Option FieldOpt)) (m : Message) :
    (({ ob with Fields := F } : Observer).observeWRP m).2 = (ob.observeWRP m).2 := by
  cases hl : ob.Logger with
  | none => simp [Observer.observeWRP, hl]
  | some lg =>
    by_cases he : lg.enabledFor ob.Level
    · simp [Observer.observeWRP, hl, he, Observer.init, h]
    · simp [Observer.observeWRP, hl, he]

theorem runTrace_state_of_once {ob : Observer} (h : ob.once = true)
    (msgs : List Message) : (runTrace ob msgs).1 = ob := by
  induction msgs with
  | nil => rfl
  | cons m rest ih =>
    simp only [runTrace]
    rw [observe_state_of_once h m, ih]

theorem runTrace_fieldsIrrel {ob : Observer} (h : ob.once = true)
    (F : List (Option FieldOpt)) (msgs : List Message) :
    (runTrace { ob with Fields := F } msgs).2 = (runTrace ob msgs).2 := by
  induction msgs with
  | nil => rfl
  | cons m rest ih =>
    simp only [runTrace]
    rw [observe_state_of_once (show ({ ob with Fields := F } : Observer).once = true from h) m,
        observe_state_of_once h m, ih, observe_snd_fieldsIrrel h]

/-! ### Slot-setter vocabulary for the compilation lemmas -/

/-- `opt` is a selector constructor bound to slot `i` installing `f`: applying
it stores `f` into slot `i` and touches nothing else (the shape of every
catalog constructor). -/
def SetsSlot (opt : FieldOpt) (i : fieldIndex) (f : fieldFunc) : Prop :=
  ∀ t, opt t = setSlot t i (some f)

/-- `opt` is some slot's constructor. -/
def SetterOpt (opt : FieldOpt) : Prop := ∃ i f, SetsSlot opt i f

/-- A possibly-nil configuration entry that, when non-nil, is a slot
constructor. -/
def OptSetter (o : Option FieldOpt) : Prop := ∀ opt, o = some opt → SetterOpt opt

/-- A possibly-nil configuration entry that never writes slot `i`. -/
def PreservesSlot (o : Option FieldOpt) (i : fieldIndex) : Prop :=
  ∀ opt, o = some opt → ∀ t, opt t i = t i

/-- Two slot tables that agree everywhere except possibly at slot `S`. -/
def AgreeExcept (S : fieldIndex) (t t' : SlotTable) : Prop :=
  ∀ j, j ≠ S → t j = t' j

theorem compileFields_cons_none (l : List (Option FieldOpt)) (t : SlotTable) :
    compileFields (none :: l) t = compileFields l t := rfl

theorem compileFields_cons_some (opt : FieldOpt) (l : List (Option FieldOpt))
    (t : SlotTable) : compileFields (some opt :: l) t = compileFields l (opt t) := rfl

theorem compileFields_append (l₁ l₂ : List (Option FieldOpt)) (t : SlotTable) :
    compileFields (l₁ ++ l₂) t = compileFields l₂ (compileFields l₁ t) := by
  simp [compileFields, List.foldl_append]

theorem compile_preservesSlot {r : List (Option FieldOpt)} {i : fieldIndex}
    (h : ∀ o ∈ r, PreservesSlot o i) :
    ∀ t, compileFields r t i = t i := by
  induction r with
  | nil => intro t; rfl
  | cons o rest ih =>
    intro t
    cases o with
    | none =>
      rw [compileFields_cons_none]
      exact ih (fun o ho => h o (List.mem_cons_of_mem _ ho)) t
    | some opt =>
      rw [compileFields_cons_some]
      rw [ih (fun o ho => h o (List.mem_cons_of_mem _ ho)) (opt t)]
      exact h (some opt) (List.mem_cons_self _ _) opt rfl t

theorem agree_compile {q : List (Option FieldOpt)} {S : fieldIndex}
    (hq : ∀ o ∈ q, OptSetter o) :
    ∀ {t t' : SlotTable}, AgreeExcept S t t' →
      AgreeExcept S (compileFields q t) (compileFields q t') := by
  induction q with
  | nil => intro t t' hagree; exact hagree
  | cons o rest ih =>
    intro t t' hagree
    cases o with
    | none =>
      rw [compileFields_cons_none, compileFields_cons_none]
      exact ih (fun o ho => hq o (List.mem_cons_of_mem _ ho)) hagree
    | some opt =>
      obtain ⟨i, f, hset⟩ := hq (some opt) (List.mem_cons_self _ _) opt rfl
      rw [compileFields_cons_some, compileFields_cons_some]
      refine ih (fun o ho => hq o (List.mem_cons_of_mem _ ho)) ?_
      intro j hj
      rw [hset t, hset t']
      by_cases hij : i = j
      · simp [setSlot, hij]
      · simp [setSlot, hij, hagree j hj]

theorem setSlot_congr_of_agree {S : fieldIndex} {t t' : SlotTable}
    (hagree : AgreeExcept S t t') (v : Option fieldFunc) :
    setSlot t S v = setSlot t' S v := by
  funext j
  by_cases h : S = j
  · simp [setSlot, h]
  · simp [setSlot, h, hagree j (fun hj => h hj.symm)]

/-! ### Claim theorems -/

/-- C1 (counterexample): the claim "mutating the configuration fields after
the first ObserveWRP call never changes the attribute lists produced by any
later call" fails on the code.  Concrete input: an observer with a nil
`Logger` whose first call fast-exits without compiling; setting the logger
and mutating `Fields` to install `SourceAlways` afterwards changes the
attribute list of the next call, compared with the same mutation of the
logger alone. -/
theorem spec_c1_counterexample :
    (({ ((mkObserver none 0 "m" []).observeWRP zeroMsg).1 with
        Logger := some enabledLogger
        Fields := [some SourceAlways] } : Observer).observeWRP zeroMsg).2 ≠
    (({ ((mkObserver none 0 "m" []).observeWRP zeroMsg).1 with
        Logger := some enabledLogger } : Observer).observeWRP zeroMsg).2 := by
  decide

/-- C1 (amended): configuration is frozen by the first `ObserveWRP` call that
actually reaches compilation, i.e. one that emits a record.  After such a
call, mutating `Fields` never changes the records produced by any sequence of
later calls. -/
theorem spec_c1_amended (ob : Observer) (m0 : Message)
    (h : ((ob.observeWRP m0).2).isSome = true) (F : List (Option FieldOpt))
    (msgs : List Message) :
    (runTrace { (ob.observeWRP m0).1 with Fields := F } msgs).2 =
      (runTrace (ob.observeWRP m0).1 msgs).2 :=
  runTrace_fieldsIrrel (observe_once_of_isSome h) F msgs

/-- C1 (witness): a concrete enabled first call, after which replacing
`Fields` does not change the emissions of a later call. -/
theorem spec_c1_witness :
    (((mkObserver (some enabledLogger) 0 "m" []).observeWRP zeroMsg).2).isSome = true ∧
    (runTrace { ((mkObserver (some enabledLogger) 0 "m" []).observeWRP zeroMsg).1 with
        Fields := [some Source] } [zeroMsg]).2 =
      (runTrace ((mkObserver (some enabledLogger) 0 "m" []).observeWRP zeroMsg).1
        [zeroMsg]).2 :=
  ⟨rfl, spec_c1_amended (mkObserver (some enabledLogger) 0 "m" []) zeroMsg rfl
    [some Source] [zeroMsg]⟩

/-- C5: the sink's emission happens exactly once per `ObserveWRP` call iff a
logger is configured and it reports the configured level enabled; when it
happens the record carries the configured level, message text and the
assembled attribute list (possibly empty); otherwise the call returns
silently with the observer state untouched. -/
theorem spec_c5 (ob : Observer) (msg : Message) :
    ((((ob.observeWRP msg).2).isSome = true) ↔
      ∃ lg, ob.Logger = some lg ∧ lg.enabledFor ob.Level = true) ∧
    (∀ lg, ob.Logger = some lg → lg.enabledFor ob.Level = true →
      (ob.observeWRP msg).2 =
        some { level := ob.Level, message := ob.Message,
               attrs := collectAttrs ob.init.fields msg }) ∧
    (((ob.observeWRP msg).2).isSome = false → ob.observeWRP msg = (ob, none)) := by
  refine ⟨?_, ?_, ?_⟩
  · cases hl : ob.Logger with
    | none => simp [Observer.observeWRP, hl]
    | some lg =>
      by_cases he : lg.enabledFor ob.Level
      · simp [Observer.observeWRP, hl, he]
      · simp [Observer.observeWRP, hl, he]
  · intro lg hl he
    simp [Observer.observeWRP, hl, he]
  · intro h
    cases hl : ob.Logger with
    | none => simp [Observer.observeWRP, hl]
    | some lg =>
      by_cases he : lg.enabledFor ob.Level
      · simp [Observer.observeWRP, hl, he] at h
      · simp [Observer.observeWRP, hl, he]

/-- C5 (witness): with an always-enabled logger and an empty configuration,
one call emits exactly one record, with an empty attribute list. -/
theorem spec_c5_witness :
    ((mkObserver (some enabledLogger) 0 "m" []).observeWRP zeroMsg).2 =
      some { level := 0, message := "m",
             attrs := collectAttrs (mkObserver (some enabledLogger) 0 "m" []).init.fields
               zeroMsg } :=
  (spec_c5 (mkObserver (some enabledLogger) 0 "m" []) zeroMsg).2.1 enabledLogger rfl rfl

/-- C6: worked example — configuration
`[MessageType, Source, Destination, TransactionUUID]` on the documented
message of type 3 emits exactly `msg_type=3`, `source`, `dest`,
`transaction_uuid`, in that order. -/
theorem spec_c6 :
    ((mkObserver (some enabledLogger) 0 "wrp message"
        [some MessageType, some Source, some Destination,
         some TransactionUUID]).observeWRP exampleMsg1).2 =
      some { level := 0, message := "wrp message",
             attrs := [{ key := fMsgType, value := AttrValue.int 3 },
                       { key := fSource,
                         value := AttrValue.str "dns:talaria.example.com/service" },
                       { key := fDestination,
                         value := AttrValue.str "event:device-status/mac:112233445566/online" },
                       { key := fTransactionUUID,
                         value := AttrValue.str "546514d4-9cb6-41c9-88ca-ccd4c130c525" }] } := by
  rfl

/-- C7: worked example with always-variants — configuration
`[MessageType, Source, DestinationAlways, StatusAlways]` on the documented
message of type 4 with destination and status absent emits exactly
`msg_type=4`, `source`, `dest=""`, `status=0`, in that order. -/
theorem spec_c7 :
    ((mkObserver (some enabledLogger) 0 "wrp message"
        [some MessageType, some Source, some DestinationAlways,
         some StatusAlways]).observeWRP exampleMsg2).2 =
      some { level := 0, message := "wrp message",
             attrs := [{ key := fMsgType, value := AttrValue.int 4 },
                       { key := fSource,
                         value := AttrValue.str "dns:talaria.example.com/service" },
                       { key := fDestination, value := AttrValue.str "" },
                       { key := fStatus, value := AttrValue.int 0 }] } := by
  rfl

/-- C8: the compiled slot table is written at most once and is read-only
thereafter.  `sync.Once` guarantees the guarded body runs exactly once across
all racing callers, which linearises to the `once` flag of the embedding:
compilation is idempotent (N racing first-callers compile once), it marks the
observer compiled, and no later sequence of calls ever changes the table. -/
theorem spec_c8 (ob : Observer) (msgs : List Message) :
    ob.init.init = ob.init ∧ ob.init.once = true ∧
      (runTrace ob.init msgs).1.fields = ob.init.fields :=
  ⟨init_of_once (init_once ob), init_once ob,
    by rw [runTrace_state_of_once (init_once ob)]⟩

/-- C9: a call that fast-exits (nil logger, or level disabled) leaves the
observer untouched and does not freeze the configuration: while `once` is
still unset, a later call whose logger is set and enabled compiles whatever
`Fields` holds at that moment, so mutations made after fast-exited calls do
affect later output. -/
theorem spec_c9 (ob : Observer) (msg : Message)
    (h : ob.Logger = none ∨
      ∃ lg, ob.Logger = some lg ∧ lg.enabledFor ob.Level = false) :
    ob.observeWRP msg = (ob, none) ∧
    (ob.once = false →
      ∀ (F : List (Option FieldOpt)) (lg' : Logger) (m2 : Message),
        lg'.enabledFor ob.Level = true →
        (({ ob with
            Logger := some lg'
            Fields := F } : Observer).observeWRP m2).2 =
          some { level := ob.Level, message := ob.Message,
                 attrs := collectAttrs (compileFields F ob.fields) m2 }) := by
  constructor
  · rcases h with hl | ⟨lg, hl, he⟩
    · simp [Observer.observeWRP, hl]
    · simp [Observer.observeWRP, hl, he]
  · intro h0 F lg' m2 he
    simp [Observer.observeWRP, Observer.init, h0, he]

/-- C9 (witness): a nil-logger observer fast-exits unchanged; afterwards,
installing a logger and `SourceAlways` makes the next call emit from the
mutated configuration. -/
theorem spec_c9_witness :
    (mkObserver none 0 "m" []).observeWRP zeroMsg = (mkObserver none 0 "m" [], none) ∧
    (({ mkObserver none 0 "m" [] with
        Logger := some enabledLogger
        Fields := [some SourceAlways] } : Observer).observeWRP zeroMsg).2 =
      some { level := 0, message := "m",
             attrs := collectAttrs (compileFields [some SourceAlways] emptyTable)
               zeroMsg } :=
  ⟨(spec_c9 (mkObserver none 0 "m" []) zeroMsg (Or.inl rfl)).1,
    (spec_c9 (mkObserver none 0 "m" []) zeroMsg (Or.inl rfl)).2 rfl
      [some SourceAlways] enabledLogger zeroMsg rfl⟩

/-- C2: last-registration wins.  For any configuration list containing the
constructor `A` and then, later, `B`, both bound to slot `S`, with the
entries between and after them being (possibly nil) slot constructors and the
entries after `B` leaving slot `S` alone: the compiled table's entry for `S`
is exactly the selector installed by `B`; moreover the whole compiled table —
and hence every emitted attribute list — is identical to the one compiled
with `A` removed, so the output never reflects `A`, and slot `S` contributes
through `B`'s selector alone. -/
theorem spec_c2 (p q r : List (Option FieldOpt)) (A B : FieldOpt)
    (S : fieldIndex) (fA fB : fieldFunc) (t₀ : SlotTable)
    (hA : SetsSlot A S fA) (hB : SetsSlot B S fB)
    (hq : ∀ o ∈ q, OptSetter o) (hrS : ∀ o ∈ r, PreservesSlot o S) :
    compileFields (p ++ some A :: (q ++ some B :: r)) t₀ S = some fB ∧
    compileFields (p ++ some A :: (q ++ some B :: r)) t₀ =
      compileFields (p ++ (q ++ some B :: r)) t₀ ∧
    ∀ msg,
      collectAttrs (compileFields (p ++ some A :: (q ++ some B :: r)) t₀) msg =
        collectAttrs (compileFields (p ++ (q ++ some B :: r)) t₀) msg := by
  have e1 : compileFields (p ++ some A :: (q ++ some B :: r)) t₀ =
      compileFields r
        (setSlot (compileFields q (setSlot (compileFields p t₀) S (some fA))) S
          (some fB)) := by
    rw [compileFields_append, compileFields_cons_some, compileFields_append,
        compileFields_cons_some, hA, hB]
  have e2 : compileFields (p ++ (q ++ some B :: r)) t₀ =
      compileFields r (setSlot (compileFields q (compileFields p t₀)) S (some fB)) := by
    rw [compileFields_append, compileFields_append, compileFields_cons_some, hB]
  have hbase : AgreeExcept S (setSlot (compileFields p t₀) S (some fA))
      (compileFields p t₀) := by
    intro j hj
    have hSj : S ≠ j := fun hh => hj hh.symm
    simp [setSlot, hSj]
  have heq : compileFields (p ++ some A :: (q ++ some B :: r)) t₀ =
      compileFields (p ++ (q ++ some B :: r)) t₀ := by
    rw [e1, e2, setSlot_congr_of_agree (agree_compile hq hbase)]
  refine ⟨?_, heq, fun msg => by rw [heq]⟩
  rw [heq, e2, compile_preservesSlot hrS]
  simp [setSlot]

/-- C2 (witness): `Source` then `SourceAlways` for the source slot, with a
`Destination` between them and a `TransactionUUID` after them — the compiled
source slot holds the `SourceAlways` selector and the whole output is as if
`Source` had never been registered. -/
theorem spec_c2_witness :
    compileFields
        [some Source, some Destination, some SourceAlways, some TransactionUUID]
        emptyTable idxSource = some sourceAlwaysField ∧
    compileFields
        [some Source, some Destination, some SourceAlways, some TransactionUUID]
        emptyTable =
      compileFields [some Destination, some SourceAlways, some TransactionUUID]
        emptyTable ∧
    ∀ msg,
      collectAttrs
          (compileFields
            [some Source, some Destination, some SourceAlways,
             some TransactionUUID] emptyTable) msg =
        collectAttrs
          (compileFields [some Destination, some SourceAlways, some TransactionUUID]
            emptyTable) msg :=
  spec_c2 [] [some Destination] [some TransactionUUID] Source SourceAlways
    idxSource sourceField sourceAlwaysField emptyTable (fun _ => rfl)
    (fun _ => rfl)
    (by
      rintro o ho opt rfl
      simp only [List.mem_singleton] at ho
      cases ho
      exact ⟨idxDestination, destinationField, fun _ => rfl⟩)
    (by
      rintro o ho opt rfl t
      simp only [List.mem_singleton] at ho
      cases ho
      rfl)

/-- C3: attribute order is slot declaration order, not configuration order.
Any two configuration lists with the same final per-slot winner for every
slot produce identical attribute lists (and identical emitted records) for
every message. -/
theorem spec_c3 (cfg1 cfg2 : List (Option FieldOpt)) (lg : Logger) (lvl : Int)
    (m : String)
    (h : ∀ i, compileFields cfg1 emptyTable i = compileFields cfg2 emptyTable i) :
    ∀ msg,
      collectAttrs (compileFields cfg1 emptyTable) msg =
        collectAttrs (compileFields cfg2 emptyTable) msg ∧
      ((mkObserver (some lg) lvl m cfg1).observeWRP msg).2 =
        ((mkObserver (some lg) lvl m cfg2).observeWRP msg).2 := by
  have ht : compileFields cfg1 emptyTable = compileFields cfg2 emptyTable :=
    funext h
  intro msg
  constructor
  · rw [ht]
  · by_cases he : lg.enabledFor lvl
    · simp [Observer.observeWRP, mkObserver, Observer.init, he, ht]
    · simp [Observer.observeWRP, mkObserver, he]

/-- C3 (witness): permuting `[MessageType, Source]` to `[Source, MessageType]`
keeps every per-slot winner, and the emitted records on the example message
coincide. -/
theorem spec_c3_witness :
    collectAttrs (compileFields [some MessageType, some Source] emptyTable)
        exampleMsg1 =
      collectAttrs (compileFields [some Source, some MessageType] emptyTable)
        exampleMsg1 ∧
    ((mkObserver (some enabledLogger) 0 "m"
        [some MessageType, some Source]).observeWRP exampleMsg1).2 =
      ((mkObserver (some enabledLogger) 0 "m"
        [some Source, some MessageType]).observeWRP exampleMsg1).2 :=
  spec_c3 [some MessageType, some Source] [some Source, some MessageType]
    enabledLogger 0 "m" (by intro i; cases i <;> rfl) exampleMsg1

/-- C4: omit laws.  For every slot with a plain omit-if-empty constructor,
the plain selector on a message whose field holds its zero/empty value yields
the skip sentinel, while the always counterpart yields the defined zero-value
rendering: empty string for string fields, integer 0 for optional numerics
and the payload size, and the empty container for sequence/mapping fields
(the empty payload renders as the empty base64 string). -/
theorem spec_c4 (msg : Message) :
    (sourceField { msg with Source := "" } = Attr.skip ∧
      sourceAlwaysField { msg with Source := "" } =
        { key := fSource, value := AttrValue.str "" }) ∧
    (destinationField { msg with Destination := "" } = Attr.skip ∧
      destinationAlwaysField { msg with Destination := "" } =
        { key := fDestination, value := AttrValue.str "" }) ∧
    (transactionUUIDField { msg with TransactionUUID := "" } = Attr.skip ∧
      transactionUUIDAlwaysField { msg with TransactionUUID := "" } =
        { key := fTransactionUUID, value := AttrValue.str "" }) ∧
    (contentTypeField { msg with ContentType := "" } = Attr.skip ∧
      contentTypeAlwaysField { msg with ContentType := "" } =
        { key := fContentType, value := AttrValue.str "" }) ∧
    (acceptField { msg with Accept := "" } = Attr.skip ∧
      acceptAlwaysField { msg with Accept := "" } =
        { key := fAccept, value := AttrValue.str "" }) ∧
    (statusField { msg with Status := none } = Attr.skip ∧
      statusAlwaysField { msg with Status := none } =
        { key := fStatus, value := AttrValue.int 0 }) ∧
    (requestDeliveryResponseField { msg with RequestDeliveryResponse := none } =
        Attr.skip ∧
      requestDeliveryResponseAlwaysField { msg with RequestDeliveryResponse := none } =
        { key := fRequestDeliveryResponse, value := AttrValue.int 0 }) ∧
    (headersField { msg with Headers := [] } = Attr.skip ∧
      headersAlwaysField { msg with Headers := [] } =
        { key := fHeaders, value := AttrValue.strList [] }) ∧
    (metadataField { msg with Metadata := [] } = Attr.skip ∧
      metadataAlwaysField { msg with Metadata := [] } =
        { key := fMetadata, value := AttrValue.strMap [] }) ∧
    (pathField { msg with Path := "" } = Attr.skip ∧
      pathAlwaysField { msg with Path := "" } =
        { key := fPath, value := AttrValue.str "" }) ∧
    (payloadAsBase64Field { msg with Payload := [] } = Attr.skip ∧
      payloadAsBase64AlwaysField { msg with Payload := [] } =
        { key := fPayload, value := AttrValue.str "" }) ∧
    (payloadSizeField { msg with Payload := [] } = Attr.skip ∧
      payloadSizeAlwaysField { msg with Payload := [] } =
        { key := fPayloadSize, value := AttrValue.int 0 }) ∧
    (serviceNameField { msg with ServiceName := "" } = Attr.skip ∧
      serviceNameAlwaysField { msg with ServiceName := "" } =
        { key := fServiceName, value := AttrValue.str "" }) ∧
    (urlField { msg with URL := "" } = Attr.skip ∧
      urlAlwaysField { msg with URL := "" } =
        { key := fURL, value := AttrValue.str "" }) ∧
    (partnerIDsField { msg with PartnerIDs := [] } = Attr.skip ∧
      partnerIDsAlwaysField { msg with PartnerIDs := [] } =
        { key := fPartnerIDs, value := AttrValue.strList [] }) ∧
    (sessionIDField { msg with SessionID := "" } = Attr.skip ∧
      sessionIDAlwaysField { msg with SessionID := "" } =
        { key := fSessionID, value := AttrValue.str "" }) := by
  simp [sourceField, sourceAlwaysField, destinationField, destinationAlwaysField,
        transactionUUIDField, transactionUUIDAlwaysField, contentTypeField,
        contentTypeAlwaysField, acceptField, acceptAlwaysField, statusField,
        statusAlwaysField, requestDeliveryResponseField,
        requestDeliveryResponseAlwaysField, headersField, headersAlwaysField,
        metadataField, metadataAlwaysField, pathField, pathAlwaysField,
        payloadAsBase64Field, payloadAsBase64AlwaysField, payloadSizeField,
        payloadSizeAlwaysField, serviceNameField, serviceNameAlwaysField,
        urlField, urlAlwaysField, partnerIDsField, partnerIDsAlwaysField,
        sessionIDField, sessionIDAlwaysField, base64Encode, Attr.skip]

/-- `opt` is a catalog-shaped constructor for slot `i`: it installs a single
selector into slot `i`, and that selector, on every message, returns either
the skip sentinel (empty key) or slot `i`'s fixed key. -/
def GoodOpt (i : fieldIndex) (opt : FieldOpt) : Prop :=
  ∃ f, (∀ t, opt t = setSlot t i (some f)) ∧
    ∀ msg, (f msg).key = "" ∨ (f msg).key = fieldKey i

/-- The full selector-constructor catalog of `fields.go`, each constructor
paired with the slot it is bound to. -/
def catalog : List (fieldIndex × FieldOpt) :=
  [(idxMsgType, MessageType), (idxMsgType, MessageTypeAsString),
   (idxMsgType, MessageTypeAsNum),
   (idxSource, Source), (idxSource, SourceAlways),
   (idxDestination, Destination), (idxDestination, DestinationAlways),
   (idxTransactionUUID, TransactionUUID),
   (idxTransactionUUID, TransactionUUIDAlways),
   (idxContentType, ContentType), (idxContentType, ContentTypeAlways),
   (idxAccept, Accept), (idxAccept, AcceptAlways),
   (idxStatus, Status), (idxStatus, StatusAlways),
   (idxRequestDeliveryResponse, RequestDeliveryResponse),
   (idxRequestDeliveryResponse, RequestDeliveryResponseAlways),
   (idxHeaders, Headers), (idxHeaders, HeadersAlways),
   (idxMetadata, Metadata), (idxMetadata, MetadataAlways),
   (idxPath, Path), (idxPath, PathAlways),
   (idxPayload, PayloadAsBase64), (idxPayload, PayloadAsBase64Always),
   (idxPayloadSize, PayloadSize), (idxPayloadSize, PayloadSizeAlways),
   (idxServiceName, ServiceName), (idxServiceName, ServiceNameAlways),
   (idxURL, URL), (idxURL, URLAlways),
   (idxPartnerIDs, PartnerIDs), (idxPartnerIDs, PartnerIDsAlways),
   (idxSessionID, SessionID), (idxSessionID, SessionIDAlways),
   (idxQualityOfService, QualityOfService),
   (idxQualityOfService, QualityOfServiceAlways)]

theorem catalog_good : ∀ p ∈ catalog, GoodOpt p.1 p.2 := by
  intro p hp
  fin_cases hp <;>
    refine ⟨_, fun t => rfl, fun msg => ?_⟩ <;>
    simp only [messageTypeAsNumField, messageTypeAsStringField, sourceField,
      sourceAlwaysField, destinationField, destinationAlwaysField,
      transactionUUIDField, transactionUUIDAlwaysField, contentTypeField,
      contentTypeAlwaysField, acceptField, acceptAlwaysField, statusField,
      statusAlwaysField, requestDeliveryResponseField,
      requestDeliveryResponseAlwaysField, headersField, headersAlwaysField,
      metadataField, metadataAlwaysField, pathField, pathAlwaysField,
      payloadAsBase64Field, payloadAsBase64AlwaysField, payloadSizeField,
      payloadSizeAlwaysField, serviceNameField, serviceNameAlwaysField,
      urlField, urlAlwaysField, partnerIDsField, partnerIDsAlwaysField,
      sessionIDField, sessionIDAlwaysField, qualityOfServiceAlwaysField,
      fieldKey] <;>
    first
      | (split <;> simp [Attr.skip])
      | simp

/-- A slot table whose every occupied entry respects its slot's key. -/
def WfTable (t : SlotTable) : Prop :=
  ∀ i f, t i = some f → ∀ msg, (f msg).key = "" ∨ (f msg).key = fieldKey i

theorem wf_emptyTable : WfTable emptyTable := by
  intro i f h
  simp [emptyTable] at h

theorem wf_setSlot {t : SlotTable} (ht : WfTable t) {i : fieldIndex}
    {f : fieldFunc} (hf : ∀ msg, (f msg).key = "" ∨ (f msg).key = fieldKey i) :
    WfTable (setSlot t i (some f)) := by
  intro j g hj msg
  by_cases hij : i = j
  · subst hij
    simp only [setSlot, if_pos trivial, eq_self_iff_true, if_true,
      Option.some.injEq] at hj
    subst hj
    exact hf msg
  · simp only [setSlot, if_neg hij] at hj
    exact ht j g hj msg

theorem wf_compileFields {cfg : List (Option FieldOpt)}
    (hc : ∀ o ∈ cfg, ∀ opt, o = some opt → ∃ i, GoodOpt i opt) :
    ∀ {t : SlotTable}, WfTable t → WfTable (compileFields cfg t) := by
  induction cfg with
  | nil => intro t ht; exact ht
  | cons o rest ih =>
    intro t ht
    cases o with
    | none =>
      rw [compileFields_cons_none]
      exact ih (fun o ho => hc o (List.mem_cons_of_mem _ ho)) ht
    | some opt =>
      obtain ⟨i, f, hset, hkey⟩ := hc (some opt) (List.mem_cons_self _ _) opt rfl
      rw [compileFields_cons_some, hset t]
      exact ih (fun o ho => hc o (List.mem_cons_of_mem _ ho)) (wf_setSlot ht hkey)

theorem slotContribution_key {t : SlotTable} (ht : WfTable t) (msg : Message)
    {i : fieldIndex} {a : Attr} (h : slotContribution t msg i = some a) :
    a.key = fieldKey i := by
  cases hti : t i with
  | none => simp [slotContribution, hti] at h
  | some fn =>
    simp only [slotContribution, hti] at h
    by_cases hk : (fn msg).key = ""
    · rw [if_pos hk] at h
      cases h
    · rw [if_neg hk] at h
      obtain rfl : fn msg = a := Option.some.inj h
      rcases ht i fn hti msg with h0 | h0
      · exact absurd h0 hk
      · exact h0

theorem fieldKey_injective :
    ∀ i j : fieldIndex, fieldKey i = fieldKey j → i = j := by decide

theorem fieldKey_mem_allFieldKeys : ∀ i : fieldIndex, fieldKey i ∈ allFieldKeys := by
  decide

theorem slotIndices_nodup : slotIndices.Nodup := by decide

theorem collectAttrs_keys {t : SlotTable} (ht : WfTable t) (msg : Message) :
    ((collectAttrs t msg).map Attr.key).Nodup ∧
    (∀ k ∈ (collectAttrs t msg).map Attr.key, k ∈ allFieldKeys) ∧
    (collectAttrs t msg).length ≤ 18 := by
  have hmap : (collectAttrs t msg).map Attr.key =
      slotIndices.filterMap (fun i => (slotContribution t msg i).map Attr.key) := by
    simp [collectAttrs, List.map_filterMap]
  have hkey : ∀ (i : fieldIndex) (k : String),
      (slotContribution t msg i).map Attr.key = some k → k = fieldKey i := by
    intro i k hk
    obtain ⟨a, ha, hak⟩ := Option.map_eq_some'.mp hk
    rw [← hak]
    exact slotContribution_key ht msg ha
  refine ⟨?_, ?_, ?_⟩
  · rw [hmap]
    refine slotIndices_nodup.filterMap ?_
    intro i j k hk hk'
    exact fieldKey_injective i j
      (((hkey i k (Option.mem_def.mp hk)).symm).trans
        (hkey j k (Option.mem_def.mp hk')))
  · intro k hk
    rw [hmap] at hk
    obtain ⟨i, _, hik⟩ := List.mem_filterMap.mp hk
    rw [hkey i k hik]
    exact fieldKey_mem_allFieldKeys i
  · calc (collectAttrs t msg).length
        ≤ slotIndices.length := List.length_filterMap_le _ _
      _ = 18 := rfl

/-- C10: key/skip invariant.  Every selector constructor in the catalog is
bound to one slot and its selector returns, on any message, either the skip
sentinel (empty key) or exactly that slot's fixed key; consequently, for any
configuration drawn from the catalog, the emitted attribute list has pairwise
distinct keys, all among the 18 fixed keys, and at most 18 entries, so the
fixed-size collection array never overflows. -/
theorem spec_c10 (cfg : List (Option FieldOpt))
    (hc : ∀ o ∈ cfg, ∀ opt, o = some opt → ∃ i, (i, opt) ∈ catalog) :
    (∀ p ∈ catalog, GoodOpt p.1 p.2) ∧
    ∀ msg,
      ((collectAttrs (compileFields cfg emptyTable) msg).map Attr.key).Nodup ∧
      (∀ k ∈ (collectAttrs (compileFields cfg emptyTable) msg).map Attr.key,
        k ∈ allFieldKeys) ∧
      (collectAttrs (compileFields cfg emptyTable) msg).length ≤ 18 := by
  refine ⟨catalog_good, fun msg => ?_⟩
  have hwf : WfTable (compileFields cfg emptyTable) := by
    refine wf_compileFields ?_ wf_emptyTable
    intro o ho opt hopt
    obtain ⟨i, hmem⟩ := hc o ho opt hopt
    exact ⟨i, catalog_good (i, opt) hmem⟩
  exact collectAttrs_keys hwf msg

/-- C10 (witness): the configuration `[Source, StatusAlways]` is drawn from
the catalog, and its attribute list on the first example message has
pairwise-distinct keys among the fixed 18 and at most 18 entries. -/
theorem spec_c10_witness :
    (∀ p ∈ catalog, GoodOpt p.1 p.2) ∧
    (((collectAttrs (compileFields [some Source, some StatusAlways] emptyTable)
        exampleMsg1).map Attr.key).Nodup ∧
      (∀ k ∈ (collectAttrs (compileFields [some Source, some StatusAlways]
          emptyTable) exampleMsg1).map Attr.key, k ∈ allFieldKeys) ∧
      (collectAttrs (compileFields [some Source, some StatusAlways] emptyTable)
          exampleMsg1).length ≤ 18) := by
  have hc : ∀ o ∈ ([some Source, some StatusAlways] : List (Option FieldOpt)),
      ∀ opt, o = some opt → ∃ i, (i, opt) ∈ catalog := by
    rintro o ho opt rfl
    simp only [List.mem_cons, List.not_mem_nil, or_false,
      Option.some.injEq] at ho
    rcases ho with rfl | rfl
    · exact ⟨idxSource, by simp [catalog]⟩
    · exact ⟨idxStatus, by simp [catalog]⟩
  exact ⟨(spec_c10 [some Source, some StatusAlways] hc).1,
    (spec_c10 [some Source, some StatusAlways] hc).2 exampleMsg1⟩

end Wrpslog


